import Mathlib

/-!
Shallow embedding of the Lookup combobox widget from
`src/scripts/Lookup.tsx` (react-lightning-design-system).

The Lookup orchestrator owns the combined state (selected entry, open flag,
search text, target scope, transient focus-first-candidate flag) and mutates
it only through its callback handlers.  Each handler is embedded as a pure
function from the state to a `StepResult`: the state right after the handler
returns, the list of caller callbacks invoked synchronously (in invocation
order), and the state after every timer scheduled by the handler has fired
(`setTimeout` bodies that only move DOM focus leave the state unchanged).

State setters (`useControlledValue` lives in `./hooks`, outside the sources).
Modelled from the spec: each stateful prop is either controlled (externally
owned, the widget only reads it) or uncontrolled (owned internally, seeded
from a default).  We embed the uncontrolled mode, where the setters update
the internal state, which is the mode in which the orchestrator's state
machine is observable.
-/

/-- A selectable candidate entry (`Entry` in Lookup.tsx). -/
structure Entry where
  label : String
  value : String
  icon : Option String := none
  scope : Option String := none
  category : Option String := none
  meta : Option String := none
deriving DecidableEq, Repr

/-- A search scope (`LookupScope` in Lookup.tsx). -/
structure LookupScope where
  label : String
  value : String
  icon : String
deriving DecidableEq, Repr

/-- The orchestrator's state (the five stateful hooks of `Lookup`). -/
structure LookupState where
  selected : Option Entry
  opened : Bool
  searchText : String
  targetScope : String
  focusFirstCandidate : Bool
deriving DecidableEq, Repr

/-- A callback invocation observable by the caller of `Lookup`. -/
inductive LookupEvent where
  | searchTextChange (text : String)
  | scopeMenuClick
  | scopeSelect (value : String)
  | lookupRequest (text : String)
  | blur
  | select (entry : Option Entry)
  | complete (cancel : Option Bool)
deriving DecidableEq, Repr

/-- Result of running one handler: the state immediately after the handler,
the callbacks it invoked (in order), and the state after its timers fired. -/
structure StepResult where
  state : LookupState
  events : List LookupEvent
  deferred : LookupState
deriving DecidableEq, Repr

/-- `onSearchTextChange` handler of `Lookup`:
`setSearchText(searchText); onSearchTextChange_?.(searchText)`. -/
def onSearchTextChange (s : LookupState) (searchText : String) : StepResult :=
  { state := { s with searchText := searchText }
    events := [.searchTextChange searchText]
    deferred := { s with searchText := searchText } }

/-- `onLookupRequest` handler of `Lookup`:
`setOpened(true); onLookupRequest_?.(searchText)`. -/
def onLookupRequest (s : LookupState) (searchText : String) : StepResult :=
  { state := { s with opened := true }
    events := [.lookupRequest searchText]
    deferred := { s with opened := true } }

/-- `onScopeMenuClick` handler of `Lookup`:
`setOpened(false); onScopeMenuClick_?.(e)`. -/
def onScopeMenuClick (s : LookupState) : StepResult :=
  { state := { s with opened := false }
    events := [.scopeMenuClick]
    deferred := { s with opened := false } }

/-- `onScopeSelect` handler of `Lookup`:
`setTargetScope(targetScope); onScopeSelect_?.(targetScope)`. -/
def onScopeSelect (s : LookupState) (targetScope : String) : StepResult :=
  { state := { s with targetScope := targetScope }
    events := [.scopeSelect targetScope]
    deferred := { s with targetScope := targetScope } }

/-- `onResetSelection` handler of `Lookup`:
`setSelected(null); onSelect_?.(null); onSearchTextChange(''); onLookupRequest('')`,
then a timer refocusing the search input (no state change). -/
def onResetSelection (s : LookupState) : StepResult :=
  let s1 : LookupState := { s with selected := none }
  let r2 := onSearchTextChange s1 ""
  let r3 := onLookupRequest r2.state ""
  { state := r3.state
    events := [.select none] ++ r2.events ++ r3.events
    deferred := r3.state }

/-- `onLookupItemSelect` handler of `Lookup`: for a non-null entry,
`setSelected(selected); setOpened(false); onSelect_?.(selected)` and a timer
focusing the pill; for null, `setOpened(false)` and a timer focusing the
input; in both branches finally `onComplete?.()` (no argument). -/
def onLookupItemSelect (s : LookupState) (selected : Option Entry) : StepResult :=
  match selected with
  | some e =>
    { state := { s with selected := some e, opened := false }
      events := [.select (some e), .complete none]
      deferred := { s with selected := some e, opened := false } }
  | none =>
    { state := { s with opened := false }
      events := [.complete none]
      deferred := { s with opened := false } }

/-- `onFocusFirstCandidate` handler of `Lookup` (wired to `onPressDown`):
if not opened, `onLookupRequest(searchText)`; otherwise
`setFocusFirstCandidate(true)` and a 10ms timer `setFocusFirstCandidate(false)`. -/
def onFocusFirstCandidate (s : LookupState) : StepResult :=
  if !s.opened then
    onLookupRequest s s.searchText
  else
    { state := { s with focusFirstCandidate := true }
      events := []
      deferred := { s with focusFirstCandidate := false } }

/-- The `onSubmit` wiring of the search bar inside `Lookup`:
`() => onLookupRequest(searchText || '')`. -/
def lookupSubmit (s : LookupState) : StepResult :=
  onLookupRequest s (if s.searchText = "" then "" else s.searchText)

/-- Body of the 500ms timer scheduled by the `onBlur` handler of `Lookup`,
as a function of whether `isFocusedInComponent()` holds when it fires:
`if (!isFocusedInComponent()) { setOpened(false); onBlur_?.(); onComplete?.(true) }`. -/
def onBlurCheck (s : LookupState) (focusedInComponent : Bool) : StepResult :=
  if focusedInComponent then
    { state := s, events := [], deferred := s }
  else
    { state := { s with opened := false }
      events := [.blur, .complete (some true)]
      deferred := { s with opened := false } }

/-- `onInputKeyDown` of `LookupSearch`, composed with the `Lookup` wiring
(`onSubmit`, `onPressDown`, `onComplete`), as a function of the key code.
The input is controlled by the state, so `e.currentTarget.value` is
`searchText`.  The trailing pass-through `onKeyDown?.(e)` is presentation
glue and emits no orchestrator callback. -/
def lookupInputKeyDown (s : LookupState) (keyCode : Nat) : StepResult :=
  if keyCode = 13 then
    -- return key: submit if the text is non-empty, otherwise quit the search
    if s.searchText ≠ "" then lookupSubmit s
    else { state := s, events := [.complete none], deferred := s }
  else if keyCode = 40 then
    -- down key
    onFocusFirstCandidate s
  else if keyCode = 27 then
    -- ESC: quit lookup search (cancel)
    { state := s, events := [.complete (some true)], deferred := s }
  else
    { state := s, events := [], deferred := s }

/-- A child of the rendered `Lookup` tree (inside the `FormElement`). -/
inductive LookupChild where
  | selection (e : Entry)
  | search (searchText : String) (targetScope : String)
  | candidateList (focus : Bool)
deriving DecidableEq, Repr

/-- The render of `Lookup`: `selected ? <LookupSelection selected=...> :
<LookupSearch searchText=... targetScope=...>` followed by
`opened ? <LookupCandidateList focus={focusFirstCandidate}...> : undefined`. -/
def renderLookup (s : LookupState) : List LookupChild :=
  (match s.selected with
   | some e => [.selection e]
   | none => [.search s.searchText s.targetScope]) ++
  (if s.opened then [.candidateList s.focusFirstCandidate] else [])

/-- Whether a rendered tree contains the selection display. -/
def hasSelectionChild (cs : List LookupChild) : Bool :=
  cs.any fun c => match c with | .selection _ => true | _ => false

/-- Whether a rendered tree contains the search bar. -/
def hasSearchChild (cs : List LookupChild) : Bool :=
  cs.any fun c => match c with | .search _ _ => true | _ => false

/-- Whether a rendered tree contains the candidate list. -/
def hasCandidateListChild (cs : List LookupChild) : Bool :=
  cs.any fun c => match c with | .candidateList _ => true | _ => false

/-- The scope-resolution loop at the head of the `scopes` branch of
`LookupSearch`: `let target = scopes[0] || {}; for (const scope of scopes)
{ if (scope.value === targetScope) { target = scope; break } }`.
`none` stands for the empty-object fallback of an empty scope list. -/
def scopeLoop (scopes : List LookupScope) (targetScope : String)
    (target : Option LookupScope) : Option LookupScope :=
  match scopes with
  | [] => target
  | sc :: rest =>
    if sc.value = targetScope then some sc else scopeLoop rest targetScope target

/-- The displayed active scope of `LookupSearch`. -/
def activeScope (scopes : List LookupScope) (targetScope : String) :
    Option LookupScope :=
  scopeLoop scopes targetScope scopes.head?

/-- A rendered `li` row of the candidate list: whether it contains a
`.react-slds-candidate[tabIndex]` anchor, and whether that anchor has
`ariaDisabled` set. -/
structure CandidateRow where
  hasAnchor : Bool
  ariaDisabled : Bool
deriving DecidableEq, Repr

/-- The sibling-walk acceptance test of `onKeyDown` in
`LookupCandidateListInner`: the row's anchor exists and is not disabled
(`anchorEl && !anchorEl.ariaDisabled`). -/
def rowFocusable (r : CandidateRow) : Bool :=
  r.hasAnchor && !r.ariaDisabled

/-- Whether the row at index `k` (if any) accepts focus. -/
def focusableAt (rows : List CandidateRow) (k : Nat) : Bool :=
  match rows[k]? with
  | some r => rowFocusable r
  | none => false

/-- Index (within the given list) of the first row accepting focus: the
forward sibling walk `while (itemEl) { ...; itemEl = itemEl.nextElementSibling }`. -/
def firstFocusableIdx : List CandidateRow → Option Nat
  | [] => none
  | r :: rest =>
    if rowFocusable r then some 0 else (firstFocusableIdx rest).map (· + 1)

/-- Index of the last row accepting focus: the backward sibling walk
`while (itemEl) { ...; itemEl = itemEl.previousElementSibling }` started at
the end of the given list finds exactly this index. -/
def lastFocusableIdx : List CandidateRow → Option Nat
  | [] => none
  | r :: rest =>
    match lastFocusableIdx rest with
    | some k => some (k + 1)
    | none => if rowFocusable r then some 0 else none

/-- Resulting focused row after a Down key (keyCode 40) in the candidate
list with focus on row `i`: walk the following siblings and focus the first
enabled anchor; if none, the walk falls off the list and focus stays. -/
def candidateFocusNext (rows : List CandidateRow) (i : Nat) : Nat :=
  match firstFocusableIdx (rows.drop (i + 1)) with
  | some k => i + 1 + k
  | none => i

/-- Resulting focused row after an Up key (keyCode 38) in the candidate
list with focus on row `i`: walk the preceding siblings and focus the first
enabled anchor; if none, focus stays. -/
def candidateFocusPrev (rows : List CandidateRow) (i : Nat) : Nat :=
  match lastFocusableIdx (rows.take i) with
  | some k => k
  | none => i

/-- The rows rendered by `LookupCandidateListInner`: one candidate row per
filtered entry (anchor present, never disabled by this source), then a
loading row without an anchor when `loading` is true. -/
def renderCandidateRows (data : List Entry) (filter : Entry → Bool)
    (loading : Bool) : List CandidateRow :=
  (data.filter filter).map (fun _ => { hasAnchor := true, ariaDisabled := false }) ++
  (if loading then [{ hasAnchor := false, ariaDisabled := false }] else [])

theorem focusableAt_nil (m : Nat) : focusableAt [] m = false := rfl

theorem focusableAt_cons_zero (r : CandidateRow) (rest : List CandidateRow) :
    focusableAt (r :: rest) 0 = rowFocusable r := by
  unfold focusableAt
  rw [List.getElem?_cons_zero]

theorem focusableAt_cons_succ (r : CandidateRow) (rest : List CandidateRow)
    (m : Nat) : focusableAt (r :: rest) (m + 1) = focusableAt rest m := by
  unfold focusableAt
  rw [List.getElem?_cons_succ]

theorem focusableAt_drop (l : List CandidateRow) (n m : Nat) :
    focusableAt (l.drop n) m = focusableAt l (n + m) := by
  unfold focusableAt
  rw [List.getElem?_drop]

theorem focusableAt_take (l : List CandidateRow) (n m : Nat) (h : m < n) :
    focusableAt (l.take n) m = focusableAt l m := by
  unfold focusableAt
  rw [List.getElem?_take, if_pos h]

theorem focusableAt_lt_length (l : List CandidateRow) (k : Nat)
    (h : focusableAt l k = true) : k < l.length := by
  by_contra hk
  have hnone : l[k]? = none := List.getElem?_eq_none (by omega)
  unfold focusableAt at h
  rw [hnone] at h
  simp at h

theorem firstFocusableIdx_none (l : List CandidateRow) :
    firstFocusableIdx l = none → ∀ m, focusableAt l m = false := by
  induction l with
  | nil => intro _ m; rfl
  | cons r rest ih =>
    intro h m
    cases hr : rowFocusable r with
    | true => simp [firstFocusableIdx, hr] at h
    | false =>
      simp only [firstFocusableIdx, hr, Bool.false_eq_true, if_false] at h
      cases m with
      | zero => rw [focusableAt_cons_zero]; exact hr
      | succ m =>
        rw [focusableAt_cons_succ]
        apply ih _ m
        cases hrest : firstFocusableIdx rest with
        | none => rfl
        | some k => rw [hrest] at h; simp at h

theorem firstFocusableIdx_spec (l : List CandidateRow) :
    ∀ k, firstFocusableIdx l = some k →
      focusableAt l k = true ∧ ∀ m, m < k → focusableAt l m = false := by
  induction l with
  | nil => intro k h; simp [firstFocusableIdx] at h
  | cons r rest ih =>
    intro k h
    cases hr : rowFocusable r with
    | true =>
      have hk : k = 0 := by simp [firstFocusableIdx, hr] at h; omega
      subst hk
      refine ⟨by rw [focusableAt_cons_zero]; exact hr, ?_⟩
      intro m hm
      omega
    | false =>
      simp only [firstFocusableIdx, hr, Bool.false_eq_true, if_false] at h
      cases hrest : firstFocusableIdx rest with
      | none => rw [hrest] at h; simp at h
      | some k' =>
        rw [hrest] at h
        have hk : k = k' + 1 := by simp at h; omega
        subst hk
        obtain ⟨ih1, ih2⟩ := ih k' hrest
        refine ⟨by rw [focusableAt_cons_succ]; exact ih1, ?_⟩
        intro m hm
        cases m with
        | zero => rw [focusableAt_cons_zero]; exact hr
        | succ m =>
          rw [focusableAt_cons_succ]
          exact ih2 m (by omega)

theorem lastFocusableIdx_none (l : List CandidateRow) :
    lastFocusableIdx l = none → ∀ m, focusableAt l m = false := by
  induction l with
  | nil => intro _ m; rfl
  | cons r rest ih =>
    intro h m
    cases hrest : lastFocusableIdx rest with
    | some k => simp [lastFocusableIdx, hrest] at h
    | none =>
      cases hr : rowFocusable r with
      | true => simp [lastFocusableIdx, hrest, hr] at h
      | false =>
        cases m with
        | zero => rw [focusableAt_cons_zero]; exact hr
        | succ m => rw [focusableAt_cons_succ]; exact ih hrest m

theorem lastFocusableIdx_spec (l : List CandidateRow) :
    ∀ k, lastFocusableIdx l = some k →
      focusableAt l k = true ∧ ∀ m, k < m → focusableAt l m = false := by
  induction l with
  | nil => intro k h; simp [lastFocusableIdx] at h
  | cons r rest ih =>
    intro k h
    cases hrest : lastFocusableIdx rest with
    | some k' =>
      have hk : k = k' + 1 := by simp [lastFocusableIdx, hrest] at h; omega
      subst hk
      obtain ⟨ih1, ih2⟩ := ih k' hrest
      refine ⟨by rw [focusableAt_cons_succ]; exact ih1, ?_⟩
      intro m hm
      cases m with
      | zero => omega
      | succ m => rw [focusableAt_cons_succ]; exact ih2 m (by omega)
    | none =>
      cases hr : rowFocusable r with
      | true =>
        have hk : k = 0 := by simp [lastFocusableIdx, hrest, hr] at h; omega
        subst hk
        refine ⟨by rw [focusableAt_cons_zero]; exact hr, ?_⟩
        intro m hm
        cases m with
        | zero => omega
        | succ m =>
          rw [focusableAt_cons_succ]
          exact lastFocusableIdx_none rest hrest m
      | false => simp [lastFocusableIdx, hrest, hr] at h

/-- Recognizer for `lookupRequest` callback invocations. -/
def isLookupRequestEvent (ev : LookupEvent) : Bool :=
  match ev with
  | .lookupRequest _ => true
  | _ => false

/-- Recognizer for `complete` callback invocations. -/
def isCompleteEvent (ev : LookupEvent) : Bool :=
  match ev with
  | .complete _ => true
  | _ => false

/-- A sample state: nothing selected, list closed, empty search text. -/
def sampleClosed : LookupState :=
  { selected := none, opened := false, searchText := "",
    targetScope := "", focusFirstCandidate := false }

/-- A sample state: nothing selected, list open, some search text. -/
def sampleOpen : LookupState :=
  { selected := none, opened := true, searchText := "ann",
    targetScope := "", focusFirstCandidate := false }

/-- A sample state: nothing selected, list closed, some search text. -/
def sampleTyped : LookupState :=
  { selected := none, opened := false, searchText := "abc",
    targetScope := "", focusFirstCandidate := false }

/-- Three enabled candidate rows, as rendered for the entries with values
`'1'`, `'2'`, `'3'`. -/
def rowsThree : List CandidateRow :=
  [{ hasAnchor := true, ariaDisabled := false },
   { hasAnchor := true, ariaDisabled := false },
   { hasAnchor := true, ariaDisabled := false }]

/-- C1: for every state of the Lookup orchestrator, the rendered tree
contains the selection display iff `selected` is non-null, the search bar
iff `selected` is null (so at most one of the two is rendered), and the
candidate list iff `opened` is true, independent of the selection state. -/
theorem lookup_render_invariant (s : LookupState) :
    hasSelectionChild (renderLookup s) = s.selected.isSome ∧
    hasSearchChild (renderLookup s) = !s.selected.isSome ∧
    hasCandidateListChild (renderLookup s) = s.opened ∧
    (hasSelectionChild (renderLookup s) && hasSearchChild (renderLookup s))
      = false := by
  cases hs : s.selected <;> cases ho : s.opened <;>
    simp [renderLookup, hasSelectionChild, hasSearchChild,
      hasCandidateListChild, hs, ho]

/-- C2: selecting a non-null entry sets `selected` to exactly that entry and
`opened` to false, and the transition is idempotent: selecting the same
entry twice from any state yields the same final state as selecting once. -/
theorem lookup_select_entry_idempotent (s : LookupState) (e : Entry) :
    (onLookupItemSelect s (some e)).state.selected = some e ∧
    (onLookupItemSelect s (some e)).state.opened = false ∧
    (onLookupItemSelect (onLookupItemSelect s (some e)).state (some e)).state
      = (onLookupItemSelect s (some e)).state := by
  refine ⟨rfl, rfl, rfl⟩

/-- C3: resetSelection always results in `selected = none` and
`searchText = ""` and invokes the `onLookupRequest` callback exactly once,
with the empty string as its argument. -/
theorem lookup_reset_selection (s : LookupState) :
    (onResetSelection s).state.selected = none ∧
    (onResetSelection s).state.searchText = "" ∧
    (onResetSelection s).events.filter isLookupRequestEvent
      = [.lookupRequest ""] := by
  refine ⟨rfl, rfl, rfl⟩

/-- C10: every selection event coming from the candidate list, select of a
non-null entry as well as select(null), additionally invokes the
`onComplete` callback exactly once, with no cancel argument. -/
theorem lookup_item_select_always_completes (s : LookupState)
    (entry : Option Entry) :
    (onLookupItemSelect s entry).events.filter isCompleteEvent
      = [.complete none] := by
  cases entry <;> rfl

/-- C7: in the candidate list, for every list of rendered rows and focused
row `i`, Down moves focus to the nearest following enabled row (skipping
disabled ones) and Up to the nearest preceding enabled row; when no such row
exists, focus does not move, so there is never a wraparound. -/
theorem lookup_candidate_roving_focus (rows : List CandidateRow) (i : Nat) :
    ((candidateFocusNext rows i = i ∧
        ∀ k, i < k → focusableAt rows k = false) ∨
      (i < candidateFocusNext rows i ∧
        focusableAt rows (candidateFocusNext rows i) = true ∧
        ∀ k, i < k → k < candidateFocusNext rows i →
          focusableAt rows k = false)) ∧
    ((candidateFocusPrev rows i = i ∧
        ∀ k, k < i → focusableAt rows k = false) ∨
      (candidateFocusPrev rows i < i ∧
        focusableAt rows (candidateFocusPrev rows i) = true ∧
        ∀ k, candidateFocusPrev rows i < k → k < i →
          focusableAt rows k = false)) := by
  constructor
  · cases hf : firstFocusableIdx (rows.drop (i + 1)) with
    | none =>
      left
      constructor
      · simp [candidateFocusNext, hf]
      · intro k hk
        have hall := firstFocusableIdx_none _ hf (k - (i + 1))
        rw [focusableAt_drop] at hall
        rwa [Nat.add_sub_cancel' (by omega : i + 1 ≤ k)] at hall
    | some k =>
      obtain ⟨h1, h2⟩ := firstFocusableIdx_spec _ k hf
      right
      refine ⟨?_, ?_, ?_⟩
      · simp only [candidateFocusNext, hf]
        omega
      · rw [focusableAt_drop] at h1
        simpa [candidateFocusNext, hf] using h1
      · intro m hm1 hm2
        simp only [candidateFocusNext, hf] at hm2
        have hlt := h2 (m - (i + 1)) (by omega)
        rw [focusableAt_drop] at hlt
        rwa [Nat.add_sub_cancel' (by omega : i + 1 ≤ m)] at hlt
  · cases hp : lastFocusableIdx (rows.take i) with
    | none =>
      left
      constructor
      · simp [candidateFocusPrev, hp]
      · intro k hk
        have hall := lastFocusableIdx_none _ hp k
        rwa [focusableAt_take _ _ _ hk] at hall
    | some k =>
      obtain ⟨h1, h2⟩ := lastFocusableIdx_spec _ k hp
      have hklen : k < (rows.take i).length := focusableAt_lt_length _ _ h1
      have hki : k < i := by
        have := List.length_take i rows
        omega
      right
      refine ⟨?_, ?_, ?_⟩
      · simpa [candidateFocusPrev, hp] using hki
      · rw [focusableAt_take _ _ _ hki] at h1
        simpa [candidateFocusPrev, hp] using h1
      · intro m hm1 hm2
        simp only [candidateFocusPrev, hp] at hm1
        have hlt := h2 m hm1
        rwa [focusableAt_take _ _ _ hm2] at hlt

/-- C7 witness: with three enabled rows and focus on row index 1, the Down
walk lands on an enabled following row and skips nothing in between. -/
theorem lookup_candidate_roving_focus_witness :
    (candidateFocusNext rowsThree 1 = 1 ∧
      ∀ k, 1 < k → focusableAt rowsThree k = false) ∨
    (1 < candidateFocusNext rowsThree 1 ∧
      focusableAt rowsThree (candidateFocusNext rowsThree 1) = true ∧
      ∀ k, 1 < k → k < candidateFocusNext rowsThree 1 →
        focusableAt rowsThree k = false) :=
  (lookup_candidate_roving_focus rowsThree 1).1

/-- C4 counterexample: with empty search text, pressing Enter (keyCode 13)
does not emit `complete` with cancel = false; the source calls
`onComplete?.()` with the cancel argument omitted. -/
theorem lookup_enter_empty_not_cancel_false :
    LookupEvent.complete (some false) ∉
      (lookupInputKeyDown sampleClosed 13).events := by
  decide

/-- C4 (amended): pressing Enter with empty text emits a single `complete`
with the cancel argument omitted (undefined), leaving the state unchanged,
so the candidate list does not open; with non-empty text it emits submit
instead: a single `lookupRequest` with the current text, opening the list. -/
theorem lookup_enter_key (s : LookupState) :
    (s.searchText = "" →
      lookupInputKeyDown s 13 =
        { state := s, events := [.complete none], deferred := s }) ∧
    (s.searchText ≠ "" →
      (lookupInputKeyDown s 13).events = [.lookupRequest s.searchText] ∧
      (lookupInputKeyDown s 13).state = { s with opened := true }) := by
  constructor
  · intro h
    simp [lookupInputKeyDown, h]
  · intro h
    simp [lookupInputKeyDown, h, lookupSubmit, onLookupRequest]

/-- C4 witness: the empty-text Enter branch at a concrete state. -/
theorem lookup_enter_key_witness :
    sampleClosed.searchText = "" ∧
    lookupInputKeyDown sampleClosed 13 =
      { state := sampleClosed, events := [.complete none],
        deferred := sampleClosed } :=
  ⟨rfl, (lookup_enter_key sampleClosed).1 rfl⟩

/-- C5: pressing Escape (keyCode 27) with non-empty text emits exactly one
`complete` event, with cancel = true, and leaves `searchText` unchanged. -/
theorem lookup_escape_key (s : LookupState) (h : s.searchText ≠ "") :
    (lookupInputKeyDown s 27).events.filter isCompleteEvent
      = [.complete (some true)] ∧
    (lookupInputKeyDown s 27).state.searchText = s.searchText := by
  exact ⟨rfl, rfl⟩

/-- C5 witness: the Escape behaviour at a concrete state with text "abc". -/
theorem lookup_escape_key_witness :
    sampleTyped.searchText ≠ "" ∧
    (lookupInputKeyDown sampleTyped 27).events.filter isCompleteEvent
      = [.complete (some true)] :=
  ⟨by decide, (lookup_escape_key sampleTyped (by decide)).1⟩

/-- C6: pressDown acts like submit when the list is closed, opening it and
issuing a `lookupRequest` with the current search text; when already open
it sets the one-shot `focusFirstCandidate` flag, which the timer resets to
false, leaving `opened` and `searchText` unchanged in both phases. -/
theorem lookup_press_down (s : LookupState) :
    (s.opened = false →
      onFocusFirstCandidate s = lookupSubmit s ∧
      (onFocusFirstCandidate s).state.opened = true ∧
      (onFocusFirstCandidate s).events = [.lookupRequest s.searchText]) ∧
    (s.opened = true →
      (onFocusFirstCandidate s).state.focusFirstCandidate = true ∧
      (onFocusFirstCandidate s).deferred.focusFirstCandidate = false ∧
      (onFocusFirstCandidate s).state.opened = s.opened ∧
      (onFocusFirstCandidate s).state.searchText = s.searchText ∧
      (onFocusFirstCandidate s).deferred.opened = s.opened ∧
      (onFocusFirstCandidate s).deferred.searchText = s.searchText) := by
  have hsub : (if s.searchText = "" then "" else s.searchText)
      = s.searchText := by
    by_cases he : s.searchText = ""
    · rw [if_pos he, he]
    · rw [if_neg he]
  constructor
  · intro h
    refine ⟨?_, ?_, ?_⟩
    · simp [onFocusFirstCandidate, lookupSubmit, h, hsub]
    · simp [onFocusFirstCandidate, h, onLookupRequest]
    · simp [onFocusFirstCandidate, h, onLookupRequest]
  · intro h
    simp [onFocusFirstCandidate, h]

/-- C6 witness: both branches at concrete states. -/
theorem lookup_press_down_witness :
    sampleClosed.opened = false ∧
    (onFocusFirstCandidate sampleClosed).state.opened = true ∧
    sampleOpen.opened = true ∧
    (onFocusFirstCandidate sampleOpen).state.focusFirstCandidate = true ∧
    (onFocusFirstCandidate sampleOpen).deferred.focusFirstCandidate = false :=
  ⟨rfl, ((lookup_press_down sampleClosed).1 rfl).2.1, rfl,
    ((lookup_press_down sampleOpen).2 rfl).1,
    ((lookup_press_down sampleOpen).2 rfl).2.1⟩

/-- C9: when the delayed (≈500ms) boundary check runs with focus outside the
widget boundary, `opened` becomes false and the `blur` and
`complete(cancel=true)` callbacks each fire exactly once; when focus is
found back inside the widget, the state is unchanged and no callback runs. -/
theorem lookup_blur_boundary_check (s : LookupState)
    (focusedInComponent : Bool) :
    (focusedInComponent = false →
      (onBlurCheck s focusedInComponent).state.opened = false ∧
      (onBlurCheck s focusedInComponent).events.count .blur = 1 ∧
      (onBlurCheck s focusedInComponent).events.count (.complete (some true))
        = 1) ∧
    (focusedInComponent = true →
      onBlurCheck s focusedInComponent
        = { state := s, events := [], deferred := s }) := by
  constructor
  · intro h
    subst h
    exact ⟨rfl, rfl, rfl⟩
  · intro h
    subst h
    rfl

/-- C9 witness: the outside-focus branch at a concrete open state. -/
theorem lookup_blur_boundary_check_witness :
    (false = false) ∧
    (onBlurCheck sampleOpen false).state.opened = false ∧
    (onBlurCheck sampleOpen false).events.count (.complete (some true)) = 1 :=
  ⟨rfl, ((lookup_blur_boundary_check sampleOpen false).1 rfl).1,
    ((lookup_blur_boundary_check sampleOpen false).1 rfl).2.2⟩

theorem scopeLoop_no_match (scopes : List LookupScope) (t : String)
    (tgt : Option LookupScope) :
    (∀ sc ∈ scopes, sc.value ≠ t) → scopeLoop scopes t tgt = tgt := by
  induction scopes with
  | nil => intro _; rfl
  | cons r rest ih =>
    intro h
    have hr : r.value ≠ t := h r (by simp)
    simp only [scopeLoop, if_neg hr]
    exact ih fun sc hsc => h sc (by simp [hsc])

theorem scopeLoop_find (scopes : List LookupScope) (t : String)
    (tgt : Option LookupScope) (sc : LookupScope) :
    scopes.find? (fun x => x.value == t) = some sc →
      scopeLoop scopes t tgt = some sc := by
  induction scopes with
  | nil => intro h; simp [List.find?] at h
  | cons r rest ih =>
    intro h
    by_cases hr : r.value = t
    · rw [List.find?_cons_of_pos _ (by simp [hr])] at h
      simp only [Option.some.injEq] at h
      subst h
      simp only [scopeLoop, if_pos hr]
    · rw [List.find?_cons_of_neg _ (by simp [hr])] at h
      simp only [scopeLoop, if_neg hr]
      exact ih h

theorem scopeLoop_isSome (scopes : List LookupScope) (t : String)
    (tgt : Option LookupScope) :
    tgt.isSome = true → (scopeLoop scopes t tgt).isSome = true := by
  induction scopes with
  | nil => intro h; exact h
  | cons r rest ih =>
    intro h
    by_cases hr : r.value = t
    · simp [scopeLoop, if_pos hr]
    · simp only [scopeLoop, if_neg hr]
      exact ih h

/-- C8: in the search bar with a non-empty scope list, the displayed active
scope is the first scope whose value equals `targetScope`; when no scope
matches (any value not present in the list included), it falls back to the
first scope of the list, always yielding a scope and signalling no error. -/
theorem lookup_scope_fallback (scopes : List LookupScope) (t : String)
    (h : scopes ≠ []) :
    (activeScope scopes t).isSome = true ∧
    ((∀ sc ∈ scopes, sc.value ≠ t) → activeScope scopes t = scopes.head?) ∧
    (∀ sc, scopes.find? (fun x => x.value == t) = some sc →
      activeScope scopes t = some sc) := by
  refine ⟨?_, ?_, ?_⟩
  · apply scopeLoop_isSome
    cases scopes with
    | nil => exact absurd rfl h
    | cons r rest => rfl
  · intro hnone
    exact scopeLoop_no_match scopes t scopes.head? hnone
  · intro sc hfind
    exact scopeLoop_find scopes t scopes.head? sc hfind

/-- Two sample scopes for the C8 witness. -/
def sampleScopes : List LookupScope :=
  [{ label := "Accounts", value := "account", icon := "standard:account" },
   { label := "Contacts", value := "contact", icon := "standard:contact" }]

/-- C8 witness: a target scope value not present in the list falls back to
the first scope. -/
theorem lookup_scope_fallback_witness :
    sampleScopes ≠ [] ∧
    activeScope sampleScopes "missing" = sampleScopes.head? :=
  ⟨by decide, (lookup_scope_fallback sampleScopes "missing" (by decide)).2.1
    (by decide)⟩
